import Mathlib

/-!
Shallow embedding of the room-safety and gas-telemetry core of the
`gas-be` service (files `app/routes/room_routes.py`, `app/model/room.py`,
`app/model/user.py`, `app/service/notification.py`).

Modelling choices:
* timestamps are natural numbers (seconds); the hourly bucket of `t` is
  `t / 3600 * 3600`;
* the float `gas_level` is embedded as a rational number `ℚ`, so the
  threshold comparison `gas_level > 300` is exact;
* the database session is explicit state: a `DB` record holding the
  `users`, `rooms`, `room_safety_status` and `room_gas_hourly_logs`
  tables; `room_safety_status` is an association list keyed by `room_id`
  (its `unique` constraint is the key-uniqueness invariant `DBWf`);
* the unique constraint `uq_room_hourly_gas` on
  `(room_id, recorded_at)` is enforced at commit time: adding a log row
  whose exact `(room_id, recorded_at)` pair already exists makes the
  commit fail (`integrityError`) and roll the transaction back;
* `db.commit()` and Firebase pushes are recorded, in program order, in
  an event trace, so that ordering claims about them can be stated.
-/

namespace GasBE

/-- A user row (`app/model/user.py`); only `id` and the nullable
`fcm_token` are read by the room routes. -/
structure User where
  id : Nat
  fcm_token : Option String
deriving DecidableEq

/-- A room row (`app/model/room.py`, class `Room`). -/
structure Room where
  id : Nat
  space_name : String
  space_type : Option String
  emegency_contact : Option String
  user_id : Nat
  date_added : Nat
deriving DecidableEq

/-- A safety-state row (`app/model/room.py`, class `RoomSafetyStatus`). -/
structure RoomSafetyStatus where
  fire_detected : Bool
  gas_detected : Bool
  valve_on : Bool
  updated_at : Nat
deriving DecidableEq

/-- A gas-reading row (`app/model/room.py`, class `RoomGasHourlyLog`). -/
structure RoomGasHourlyLog where
  room_id : Nat
  gas_level : ℚ
  recorded_at : Nat
deriving DecidableEq

/-- The database state seen by the room routes. -/
structure DB where
  users : List User
  rooms : List Room
  safety : List (Nat × RoomSafetyStatus)
  gas_logs : List RoomGasHourlyLog
deriving DecidableEq

/-- Errors surfaced by the routes: HTTP 404, and the storage-layer
unique-constraint violation raised by `db.commit()`. -/
inductive ApiErr where
  | notFound
  | integrityError
deriving DecidableEq

/-- Observable side effects of one request, in program order. -/
inductive PushEvent where
  | commit
  | push (token title body : String)
deriving DecidableEq

/-- Whether an event is a Firebase push. -/
def PushEvent.isPush : PushEvent → Bool
  | .push _ _ _ => true
  | .commit => false

/-- Whether an event is a database commit. -/
def PushEvent.isCommit : PushEvent → Bool
  | .commit => true
  | .push _ _ _ => false

/-- Result of one route call: the response or error, the database state
after the call, and the trace of commits and pushes it performed. -/
structure Outcome (A : Type) where
  res : Except ApiErr A
  db : DB
  trace : List PushEvent

/-- Whether the call returned a success response. -/
def Outcome.isOk {A : Type} (o : Outcome A) : Bool :=
  match o.res with
  | .ok _ => true
  | .error _ => false

/-- `db.query(Room).filter(Room.id == room_id).first()`. -/
def findRoom (db : DB) (room_id : Nat) : Option Room :=
  db.rooms.find? (fun r => r.id == room_id)

/-- `room.safety_status`: the unique safety row of a room, if any. -/
def findSafety (db : DB) (room_id : Nat) : Option RoomSafetyStatus :=
  (db.safety.find? (fun p => p.1 == room_id)).map (fun p => p.2)

/-- Store `st` as the safety row of `room_id`: update in place when a
row exists, otherwise insert a fresh row (`db.add`). -/
def setSafety (db : DB) (room_id : Nat) (st : RoomSafetyStatus) : DB :=
  if (db.safety.find? (fun p => p.1 == room_id)).isSome then
    { db with safety :=
        db.safety.map (fun p => if p.1 == room_id then (room_id, st) else p) }
  else
    { db with safety := (room_id, st) :: db.safety }

/-- `room.owner.fcm_token`. -/
def ownerToken (db : DB) (room : Room) : Option String :=
  (db.users.find? (fun u => u.id == room.user_id)).bind (fun u => u.fcm_token)

/-- `app/service/notification.py`, `send_push_notification`: a missing
or empty token is a silent no-op, otherwise one push is sent. -/
def send_push_notification (token : Option String) (title body : String) :
    List PushEvent :=
  match token with
  | none => []
  | some t => if t = "" then [] else [PushEvent.push t title body]

/-- The defaults used whenever a `RoomSafetyStatus` is created
(`fire_detected=False`, `gas_detected=False`, `valve_on=True`). -/
def defaultSafety (now : Nat) : RoomSafetyStatus :=
  ⟨false, false, true, now⟩

/-- The hourly bucket of a timestamp (truncate to the whole hour). -/
def hourBucket (t : Nat) : Nat :=
  t / 3600 * 3600

/-- Whether some stored reading of `room_id` has exactly timestamp `t`
(the `uq_room_hourly_gas` unique constraint on `(room_id, recorded_at)`). -/
def hasGasLogAt (db : DB) (room_id : Nat) (t : Nat) : Bool :=
  db.gas_logs.any (fun l => l.room_id == room_id && l.recorded_at == t)

/-- `PATCH /v1/room/{room_id}/toggle-fire` (`toggle_fire`): 404 when the
room is absent; otherwise lazily create the safety row with defaults,
flip `fire_detected`, commit, then push a fire alert when the new value
is true. -/
def toggle_fire (db : DB) (room_id : Nat) (now : Nat) : Outcome Bool :=
  match findRoom db room_id with
  | none => ⟨.error .notFound, db, []⟩
  | some room =>
    let st := (findSafety db room_id).getD (defaultSafety now)
    let st' := { st with fire_detected := !st.fire_detected, updated_at := now }
    ⟨.ok st'.fire_detected, setSafety db room_id st',
      PushEvent.commit ::
        (if st'.fire_detected then
          send_push_notification (ownerToken db room) "🔥 Fire Alert"
            ("Fire detected in " ++ room.space_name)
        else [])⟩

/-- `PATCH /v1/room/{room_id}/toggle-gas` (`toggle_gas`): 404 when the
room is absent; otherwise lazily create the safety row, flip
`gas_detected`; when the new value is true, force `valve_on := false`
and push a gas-leak alert; commit last. -/
def toggle_gas (db : DB) (room_id : Nat) (now : Nat) : Outcome (Bool × Bool) :=
  match findRoom db room_id with
  | none => ⟨.error .notFound, db, []⟩
  | some room =>
    let st := (findSafety db room_id).getD (defaultSafety now)
    if st.gas_detected then
      let st' := { st with gas_detected := false, updated_at := now }
      ⟨.ok (false, st'.valve_on), setSafety db room_id st', [PushEvent.commit]⟩
    else
      let st' := { st with gas_detected := true, valve_on := false,
                           updated_at := now }
      ⟨.ok (true, false), setSafety db room_id st',
        send_push_notification (ownerToken db room) "⚠️ Gas Leak Detected"
          ("Gas leak detected in " ++ room.space_name ++ ". Valve turned OFF.")
          ++ [PushEvent.commit]⟩

/-- `PATCH /v1/room/{room_id}/toggle-valve` (`toggle_valve`): 404 when
the room or its safety row is absent (no lazy creation here); otherwise
flip `valve_on` and commit. No push is ever sent. -/
def toggle_valve (db : DB) (room_id : Nat) (now : Nat) : Outcome Bool :=
  match findRoom db room_id with
  | none => ⟨.error .notFound, db, []⟩
  | some _ =>
    match findSafety db room_id with
    | none => ⟨.error .notFound, db, []⟩
    | some st =>
      let st' := { st with valve_on := !st.valve_on, updated_at := now }
      ⟨.ok st'.valve_on, setSafety db room_id st', [PushEvent.commit]⟩

/-- Response body of `POST /v1/room/{room_id}/gas-level`. -/
structure GasSubmitResponse where
  room_id : Nat
  gas_level : ℚ
  recorded_at : Nat
deriving DecidableEq

/-- `POST /v1/room/{room_id}/gas-level` (`submit_gas_level`): 404 when
the room is absent; otherwise always add a log row with the exact
submission instant `now`, lazily create the safety row, set
`gas_detected := gas_level > 300` (forcing `valve_on := false` and
pushing a gas alert when above threshold), then commit.  The commit
fails (`integrityError`, rollback) exactly when a reading of this room
with the exact same `recorded_at` already exists; note the push, if
any, was already sent at that point. -/
def submit_gas_level (db : DB) (room_id : Nat) (gas_level : ℚ) (now : Nat) :
    Outcome GasSubmitResponse :=
  match findRoom db room_id with
  | none => ⟨.error .notFound, db, []⟩
  | some room =>
    let st := (findSafety db room_id).getD (defaultSafety now)
    let st' :=
      if 300 < gas_level then
        { st with gas_detected := true, valve_on := false, updated_at := now }
      else
        { st with gas_detected := false, updated_at := now }
    let alerts :=
      if 300 < gas_level then
        send_push_notification (ownerToken db room) "⚠️ Gas Alert"
          ("High gas level detected in " ++ room.space_name)
      else []
    if hasGasLogAt db room_id now then
      ⟨.error .integrityError, db, alerts⟩
    else
      ⟨.ok ⟨room_id, gas_level, now⟩,
        { setSafety db room_id st' with
            gas_logs := ⟨room_id, gas_level, now⟩ :: db.gas_logs },
        alerts ++ [PushEvent.commit]⟩

/-- Stable insertion into a list kept in descending `recorded_at` order. -/
def insertByDesc (x : RoomGasHourlyLog) :
    List RoomGasHourlyLog → List RoomGasHourlyLog
  | [] => [x]
  | y :: ys =>
    if y.recorded_at ≤ x.recorded_at then x :: y :: ys
    else y :: insertByDesc x ys

/-- `ORDER BY recorded_at DESC` as an insertion sort. -/
def sortByDesc : List RoomGasHourlyLog → List RoomGasHourlyLog
  | [] => []
  | x :: xs => insertByDesc x (sortByDesc xs)

/-- Response body of `GET /v1/room/{room_id}/gas-levels`: the data items
are `(gas_level, recorded_at)` pairs. -/
structure GasLevelsResponse where
  room_id : Nat
  count : Nat
  data : List (ℚ × Nat)
deriving DecidableEq

/-- The filter stage of the history query: restrict to the room, then
apply the inclusive optional bounds (`>= start_time`, `<= end_time`). -/
def gasQueryFiltered (db : DB) (room_id : Nat)
    (start_time end_time : Option Nat) : List RoomGasHourlyLog :=
  let q0 := db.gas_logs.filter (fun l => l.room_id == room_id)
  let q1 := match start_time with
    | some s => q0.filter (fun l => decide (s ≤ l.recorded_at))
    | none => q0
  match end_time with
  | some e => q1.filter (fun l => decide (l.recorded_at ≤ e))
  | none => q1

/-- `GET /v1/room/{room_id}/gas-levels` (`get_gas_levels`): 404 when the
room is absent; otherwise filter the room's readings by the inclusive
optional bounds, order by `recorded_at` descending, truncate to
`limit`. -/
def get_gas_levels (db : DB) (room_id : Nat)
    (start_time end_time : Option Nat) (limit : Nat) :
    Outcome GasLevelsResponse :=
  match findRoom db room_id with
  | none => ⟨.error .notFound, db, []⟩
  | some _ =>
    let logs :=
      (sortByDesc (gasQueryFiltered db room_id start_time end_time)).take limit
    ⟨.ok ⟨room_id, logs.length, logs.map (fun l => (l.gas_level, l.recorded_at))⟩,
      db, []⟩

/-- Fresh autoincrement primary key for a new room. -/
def nextRoomId (db : DB) : Nat :=
  db.rooms.foldr (fun r m => max r.id m) 0 + 1

/-- `POST /v1/room/` (`create_room`): insert the room together with a
safety row built from the defaults, then commit. -/
def create_room (db : DB) (user_id : Nat) (space_name : String)
    (space_type emegency_contact : Option String) (now : Nat) : Outcome Room :=
  let room : Room :=
    ⟨nextRoomId db, space_name, space_type, emegency_contact, user_id, now⟩
  ⟨.ok room,
    { db with rooms := room :: db.rooms,
              safety := (room.id, defaultSafety now) :: db.safety },
    [PushEvent.commit]⟩

/-- No push occurs strictly before the first commit of the trace. -/
def noPushBeforeCommit (tr : List PushEvent) : Bool :=
  (tr.takeWhile (fun e => !e.isCommit)).all (fun e => !e.isPush)

/-- No push occurs strictly after the first commit of the trace. -/
def noPushAfterCommit (tr : List PushEvent) : Bool :=
  ((tr.dropWhile (fun e => !e.isCommit)).drop 1).all (fun e => !e.isPush)

/-- The room-id keys of the safety table. -/
def safetyKeys (db : DB) : List Nat :=
  db.safety.map (fun p => p.1)

/-- Storage invariants of the safety table: its `unique` key constraint
(at most one row per room) and its foreign key into `rooms`. -/
def DBWf (db : DB) : Prop :=
  (safetyKeys db).Nodup ∧ ∀ k ∈ safetyKeys db, ∃ r ∈ db.rooms, r.id = k

/-- A user with a registered push token. -/
def sampleUser : User := ⟨1, some "tok"⟩

/-- A room owned by `sampleUser`. -/
def sampleRoom : Room := ⟨1, "Kitchen", none, none, 1, 0⟩

/-- One room with a default safety row and no readings. -/
def sampleDB : DB :=
  ⟨[sampleUser], [sampleRoom], [(1, defaultSafety 0)], []⟩

/-- One room with no safety row. -/
def sampleDBNoStatus : DB :=
  ⟨[sampleUser], [sampleRoom], [], []⟩

/-- One room whose safety row has the valve closed and a reading stored
at timestamp 500. -/
def sampleDBdup : DB :=
  ⟨[sampleUser], [sampleRoom], [(1, ⟨false, false, true, 0⟩)],
    [⟨1, 100, 500⟩]⟩

/-- One room with two readings inside the bounds used by the query
witness. -/
def sampleDBlogs : DB :=
  ⟨[sampleUser], [sampleRoom], [(1, defaultSafety 0)],
    [⟨1, 100, 50⟩, ⟨1, 400, 80⟩]⟩

/-- A database with a user and no rooms at all. -/
def sampleDBNoRooms : DB := ⟨[sampleUser], [], [], []⟩

/-- One room whose safety row records a gas alert: gas detected and the
valve already closed. -/
def sampleDBvalveOff : DB :=
  ⟨[sampleUser], [sampleRoom], [(1, ⟨false, true, false, 0⟩)], []⟩

/-! ### Basic lemmas about the storage helpers -/

theorem rooms_setSafety (db : DB) (rid : Nat) (st : RoomSafetyStatus) :
    (setSafety db rid st).rooms = db.rooms := by
  unfold setSafety
  split <;> rfl

theorem gas_logs_setSafety (db : DB) (rid : Nat) (st : RoomSafetyStatus) :
    (setSafety db rid st).gas_logs = db.gas_logs := by
  unfold setSafety
  split <;> rfl

theorem findRoom_setSafety (db : DB) (rid rid2 : Nat) (st : RoomSafetyStatus) :
    findRoom (setSafety db rid st) rid2 = findRoom db rid2 := by
  unfold findRoom
  rw [rooms_setSafety]

theorem find?_map_update (l : List (Nat × RoomSafetyStatus)) (rid : Nat)
    (st : RoomSafetyStatus)
    (h : (l.find? (fun p => p.1 == rid)).isSome = true) :
    ((l.map (fun p => if p.1 == rid then (rid, st) else p)).find?
        (fun p => p.1 == rid)) = some (rid, st) := by
  induction l with
  | nil => simp at h
  | cons a l ih =>
    by_cases ha : a.1 = rid
    · have hb : (a.1 == rid) = true := beq_iff_eq.mpr ha
      simp only [List.map_cons, hb, if_true]
      exact List.find?_cons_of_pos _ (by simp)
    · have hb : (a.1 == rid) = false := by simp [ha]
      simp only [List.map_cons, hb, Bool.false_eq_true, if_false]
      rw [List.find?_cons_of_neg _ (by simp [hb])]
      apply ih
      rw [List.find?_cons_of_neg _ (by simp [hb])] at h
      exact h

theorem findSafety_setSafety_self (db : DB) (rid : Nat) (st : RoomSafetyStatus) :
    findSafety (setSafety db rid st) rid = some st := by
  unfold findSafety setSafety
  by_cases h : (db.safety.find? (fun p => p.1 == rid)).isSome = true
  · rw [if_pos h]
    show ((db.safety.map _).find? _).map _ = _
    rw [find?_map_update db.safety rid st h]
    rfl
  · rw [if_neg h]
    show (((rid, st) :: db.safety).find? _).map _ = _
    rw [List.find?_cons_of_pos _ (by simp)]
    rfl

theorem safetyKeys_setSafety_of_isSome (db : DB) (rid : Nat)
    (st : RoomSafetyStatus)
    (h : (db.safety.find? (fun p => p.1 == rid)).isSome = true) :
    safetyKeys (setSafety db rid st) = safetyKeys db := by
  unfold setSafety safetyKeys
  rw [if_pos h]
  show (db.safety.map _).map _ = _
  rw [List.map_map]
  apply List.map_congr_left
  intro p _
  by_cases hp : p.1 = rid
  · simp [Function.comp, hp]
  · simp [Function.comp, hp]

theorem safetyKeys_setSafety_of_none (db : DB) (rid : Nat)
    (st : RoomSafetyStatus)
    (h : db.safety.find? (fun p => p.1 == rid) = none) :
    safetyKeys (setSafety db rid st) = rid :: safetyKeys db := by
  unfold setSafety safetyKeys
  rw [h]
  rfl

theorem setSafety_wf (db : DB) (rid : Nat) (st : RoomSafetyStatus)
    (hwf : DBWf db) (hroom : ∃ r ∈ db.rooms, r.id = rid) :
    DBWf (setSafety db rid st) := by
  rcases hwf with ⟨hnd, hfk⟩
  by_cases h : (db.safety.find? (fun p => p.1 == rid)).isSome = true
  · refine ⟨?_, ?_⟩
    · rw [safetyKeys_setSafety_of_isSome db rid st h]; exact hnd
    · rw [safetyKeys_setSafety_of_isSome db rid st h, rooms_setSafety]
      exact hfk
  · have h' : db.safety.find? (fun p => p.1 == rid) = none := by
      cases hfind : db.safety.find? (fun p => p.1 == rid) with
      | none => rfl
      | some a => rw [hfind] at h; simp at h
    refine ⟨?_, ?_⟩
    · rw [safetyKeys_setSafety_of_none db rid st h', List.nodup_cons]
      refine ⟨?_, hnd⟩
      intro hmem
      rcases List.mem_map.mp hmem with ⟨p, hp, hpe⟩
      exact List.find?_eq_none.mp h' p hp (by simp [hpe])
    · rw [safetyKeys_setSafety_of_none db rid st h', rooms_setSafety]
      intro k hk
      rcases List.mem_cons.mp hk with hk | hk
      · subst hk; exact hroom
      · exact hfk k hk

theorem room_of_findRoom (db : DB) (rid : Nat) (room : Room)
    (h : findRoom db rid = some room) : room ∈ db.rooms ∧ room.id = rid := by
  unfold findRoom at h
  exact ⟨List.mem_of_find?_eq_some h, by simpa using List.find?_some h⟩

/-! ### Fresh room ids -/

theorem le_foldr_max (r : Room) (l : List Room) (h : r ∈ l) :
    r.id ≤ l.foldr (fun x m => max x.id m) 0 := by
  induction l with
  | nil => cases h
  | cons a l ih =>
    rcases List.mem_cons.mp h with h | h
    · subst h; exact Nat.le_max_left _ _
    · exact Nat.le_trans (ih h) (Nat.le_max_right _ _)

theorem lt_nextRoomId (db : DB) (r : Room) (h : r ∈ db.rooms) :
    r.id < nextRoomId db :=
  Nat.lt_succ_of_le (le_foldr_max r db.rooms h)

/-! ### Sorting lemmas -/

theorem mem_insertByDesc (z x : RoomGasHourlyLog) (l : List RoomGasHourlyLog) :
    z ∈ insertByDesc x l ↔ z = x ∨ z ∈ l := by
  induction l with
  | nil => simp [insertByDesc]
  | cons y ys ih =>
    unfold insertByDesc
    by_cases h : y.recorded_at ≤ x.recorded_at
    · rw [if_pos h]
      simp [List.mem_cons]
    · rw [if_neg h]
      simp only [List.mem_cons, ih]
      tauto

theorem sorted_insertByDesc (x : RoomGasHourlyLog) (l : List RoomGasHourlyLog)
    (h : List.Pairwise (fun a b => b.recorded_at ≤ a.recorded_at) l) :
    List.Pairwise (fun a b => b.recorded_at ≤ a.recorded_at)
      (insertByDesc x l) := by
  induction l with
  | nil => simp [insertByDesc]
  | cons y ys ih =>
    rcases List.pairwise_cons.mp h with ⟨hy, hys⟩
    unfold insertByDesc
    by_cases hle : y.recorded_at ≤ x.recorded_at
    · rw [if_pos hle, List.pairwise_cons]
      refine ⟨?_, h⟩
      intro a ha
      rcases List.mem_cons.mp ha with ha | ha
      · subst ha; exact hle
      · exact Nat.le_trans (hy a ha) hle
    · rw [if_neg hle, List.pairwise_cons]
      refine ⟨?_, ih hys⟩
      intro a ha
      rcases (mem_insertByDesc a x ys).mp ha with ha | ha
      · subst ha; omega
      · exact hy a ha

theorem mem_sortByDesc (z : RoomGasHourlyLog) (l : List RoomGasHourlyLog) :
    z ∈ sortByDesc l ↔ z ∈ l := by
  induction l with
  | nil => simp [sortByDesc]
  | cons x xs ih =>
    unfold sortByDesc
    rw [mem_insertByDesc, ih, List.mem_cons]

theorem sorted_sortByDesc (l : List RoomGasHourlyLog) :
    List.Pairwise (fun a b => b.recorded_at ≤ a.recorded_at) (sortByDesc l) := by
  induction l with
  | nil => simp [sortByDesc]
  | cons x xs ih => exact sorted_insertByDesc x (sortByDesc xs) ih

/-! ### State of each route after a call -/

theorem toggle_fire_none (db : DB) (rid now : Nat)
    (hr : findRoom db rid = none) :
    toggle_fire db rid now = ⟨.error .notFound, db, []⟩ := by
  unfold toggle_fire
  rw [hr]

theorem toggle_gas_none (db : DB) (rid now : Nat)
    (hr : findRoom db rid = none) :
    toggle_gas db rid now = ⟨.error .notFound, db, []⟩ := by
  unfold toggle_gas
  rw [hr]

theorem toggle_valve_none (db : DB) (rid now : Nat)
    (hr : findRoom db rid = none) :
    toggle_valve db rid now = ⟨.error .notFound, db, []⟩ := by
  unfold toggle_valve
  rw [hr]

theorem findSafety_toggle_fire (db : DB) (rid now : Nat) (room : Room)
    (st : RoomSafetyStatus) (hr : findRoom db rid = some room)
    (hs : findSafety db rid = some st) :
    findSafety (toggle_fire db rid now).db rid =
      some { st with fire_detected := !st.fire_detected, updated_at := now } := by
  unfold toggle_fire
  rw [hr]
  simp only [hs, Option.getD_some]
  exact findSafety_setSafety_self db rid _

theorem res_toggle_fire (db : DB) (rid now : Nat) (room : Room)
    (st : RoomSafetyStatus) (hr : findRoom db rid = some room)
    (hs : findSafety db rid = some st) :
    (toggle_fire db rid now).res = Except.ok (!st.fire_detected) := by
  unfold toggle_fire
  rw [hr]
  simp only [hs, Option.getD_some]

theorem findSafety_toggle_gas (db : DB) (rid now : Nat) (room : Room)
    (st : RoomSafetyStatus) (hr : findRoom db rid = some room)
    (hs : findSafety db rid = some st) :
    findSafety (toggle_gas db rid now).db rid =
      some (if st.gas_detected then
              { st with gas_detected := false, updated_at := now }
            else
              { st with gas_detected := true, valve_on := false,
                        updated_at := now }) := by
  unfold toggle_gas
  rw [hr]
  simp only [hs, Option.getD_some]
  by_cases hg : st.gas_detected
  · simp only [hg, if_true]
    exact findSafety_setSafety_self db rid _
  · simp only [hg, Bool.false_eq_true, if_false]
    exact findSafety_setSafety_self db rid _

theorem findSafety_toggle_valve (db : DB) (rid now : Nat) (room : Room)
    (st : RoomSafetyStatus) (hr : findRoom db rid = some room)
    (hs : findSafety db rid = some st) :
    findSafety (toggle_valve db rid now).db rid =
      some { st with valve_on := !st.valve_on, updated_at := now } := by
  unfold toggle_valve
  rw [hr, hs]
  exact findSafety_setSafety_self db rid _

theorem findRoom_toggle_fire (db : DB) (rid now : Nat) :
    findRoom (toggle_fire db rid now).db rid = findRoom db rid := by
  unfold toggle_fire
  cases hr : findRoom db rid with
  | none => exact hr
  | some room => simp [findRoom_setSafety, hr]

theorem findRoom_toggle_gas (db : DB) (rid now : Nat) :
    findRoom (toggle_gas db rid now).db rid = findRoom db rid := by
  unfold toggle_gas
  cases hr : findRoom db rid with
  | none => exact hr
  | some room =>
    by_cases hg : ((findSafety db rid).getD (defaultSafety now)).gas_detected
    · simp [hg, findRoom_setSafety, hr]
    · simp [hg, findRoom_setSafety, hr]

theorem findRoom_toggle_valve (db : DB) (rid now : Nat) :
    findRoom (toggle_valve db rid now).db rid = findRoom db rid := by
  unfold toggle_valve
  cases hr : findRoom db rid with
  | none => exact hr
  | some room =>
    cases hs : findSafety db rid with
    | none => exact hr
    | some st => simp [findRoom_setSafety, hr]

/-- Claim C5: toggling fire, gas or valve twice restores the toggled
field to its original value, whatever the rest of the state. -/
theorem spec_c5_toggles_involutive (db : DB) (rid n1 n2 : Nat)
    (st : RoomSafetyStatus) (hs : findSafety db rid = some st) :
    (∃ st2,
        findSafety (toggle_fire (toggle_fire db rid n1).db rid n2).db rid
          = some st2
        ∧ st2.fire_detected = st.fire_detected)
  ∧ (∃ st2,
        findSafety (toggle_gas (toggle_gas db rid n1).db rid n2).db rid
          = some st2
        ∧ st2.gas_detected = st.gas_detected)
  ∧ (∃ st2,
        findSafety (toggle_valve (toggle_valve db rid n1).db rid n2).db rid
          = some st2
        ∧ st2.valve_on = st.valve_on) := by
  cases hr : findRoom db rid with
  | none =>
    rw [toggle_fire_none db rid n1 hr, toggle_gas_none db rid n1 hr,
        toggle_valve_none db rid n1 hr]
    rw [toggle_fire_none db rid n2 hr, toggle_gas_none db rid n2 hr,
        toggle_valve_none db rid n2 hr]
    exact ⟨⟨st, hs, rfl⟩, ⟨st, hs, rfl⟩, ⟨st, hs, rfl⟩⟩
  | some room =>
    refine ⟨?_, ?_, ?_⟩
    · have h1 := findSafety_toggle_fire db rid n1 room st hr hs
      have hr1 : findRoom (toggle_fire db rid n1).db rid = some room := by
        rw [findRoom_toggle_fire]; exact hr
      have h2 := findSafety_toggle_fire (toggle_fire db rid n1).db rid n2 room
        _ hr1 h1
      exact ⟨_, h2, Bool.not_not st.fire_detected⟩
    · have h1 := findSafety_toggle_gas db rid n1 room st hr hs
      have hr1 : findRoom (toggle_gas db rid n1).db rid = some room := by
        rw [findRoom_toggle_gas]; exact hr
      have h2 := findSafety_toggle_gas (toggle_gas db rid n1).db rid n2 room
        _ hr1 h1
      refine ⟨_, h2, ?_⟩
      by_cases hg : st.gas_detected
      · simp [hg]
      · simp [hg]
    · have h1 := findSafety_toggle_valve db rid n1 room st hr hs
      have hr1 : findRoom (toggle_valve db rid n1).db rid = some room := by
        rw [findRoom_toggle_valve]; exact hr
      have h2 := findSafety_toggle_valve (toggle_valve db rid n1).db rid n2 room
        _ hr1 h1
      exact ⟨_, h2, Bool.not_not st.valve_on⟩

/-- Witness for C5 at a concrete database. -/
theorem spec_c5_toggles_involutive_witness :
    (∃ st2,
        findSafety (toggle_fire (toggle_fire sampleDB 1 3).db 1 4).db 1
          = some st2
        ∧ st2.fire_detected = (defaultSafety 0).fire_detected)
  ∧ (∃ st2,
        findSafety (toggle_gas (toggle_gas sampleDB 1 3).db 1 4).db 1
          = some st2
        ∧ st2.gas_detected = (defaultSafety 0).gas_detected)
  ∧ (∃ st2,
        findSafety (toggle_valve (toggle_valve sampleDB 1 3).db 1 4).db 1
          = some st2
        ∧ st2.valve_on = (defaultSafety 0).valve_on) :=
  spec_c5_toggles_involutive sampleDB 1 3 4 (defaultSafety 0) (by decide)

/-- Claim C10: with an existing safety row, `toggle_fire` leaves
`gas_detected` and `valve_on` untouched, and `toggle_valve` leaves
`fire_detected` and `gas_detected` untouched. -/
theorem spec_c10_toggle_frames (db : DB) (rid now : Nat)
    (st : RoomSafetyStatus) (hs : findSafety db rid = some st) :
    (∀ st1, findSafety (toggle_fire db rid now).db rid = some st1 →
        st1.gas_detected = st.gas_detected ∧ st1.valve_on = st.valve_on)
  ∧ (∀ st1, findSafety (toggle_valve db rid now).db rid = some st1 →
        st1.fire_detected = st.fire_detected
        ∧ st1.gas_detected = st.gas_detected) := by
  cases hr : findRoom db rid with
  | none =>
    rw [toggle_fire_none db rid now hr, toggle_valve_none db rid now hr]
    constructor
    · intro st1 h1
      rw [hs] at h1
      cases h1
      exact ⟨rfl, rfl⟩
    · intro st1 h1
      rw [hs] at h1
      cases h1
      exact ⟨rfl, rfl⟩
  | some room =>
    constructor
    · intro st1 h1
      rw [findSafety_toggle_fire db rid now room st hr hs] at h1
      cases h1
      exact ⟨rfl, rfl⟩
    · intro st1 h1
      rw [findSafety_toggle_valve db rid now room st hr hs] at h1
      cases h1
      exact ⟨rfl, rfl⟩

/-- Witness for C10 at a concrete database. -/
theorem spec_c10_toggle_frames_witness :
    (∀ st1, findSafety (toggle_fire sampleDB 1 3).db 1 = some st1 →
        st1.gas_detected = (defaultSafety 0).gas_detected
        ∧ st1.valve_on = (defaultSafety 0).valve_on)
  ∧ (∀ st1, findSafety (toggle_valve sampleDB 1 3).db 1 = some st1 →
        st1.fire_detected = (defaultSafety 0).fire_detected
        ∧ st1.gas_detected = (defaultSafety 0).gas_detected) :=
  spec_c10_toggle_frames sampleDB 1 3 (defaultSafety 0) (by decide)

/-- Claim C6: on a room without a safety row, `toggle_valve` fails
`notFound` and changes nothing, while `toggle_fire` and `toggle_gas`
first create the row with defaults and then flip their field (the gas
branch then also forces the valve closed). -/
theorem spec_c6_missing_state_asymmetry (db : DB) (rid now : Nat)
    (room : Room) (hr : findRoom db rid = some room)
    (hs : findSafety db rid = none) :
    (toggle_valve db rid now = ⟨.error .notFound, db, []⟩)
  ∧ ((toggle_fire db rid now).res = Except.ok true
      ∧ findSafety (toggle_fire db rid now).db rid
          = some ⟨true, false, true, now⟩)
  ∧ ((toggle_gas db rid now).res = Except.ok (true, false)
      ∧ findSafety (toggle_gas db rid now).db rid
          = some ⟨false, true, false, now⟩) := by
  refine ⟨?_, ⟨?_, ?_⟩, ⟨?_, ?_⟩⟩
  · unfold toggle_valve
    rw [hr, hs]
  · unfold toggle_fire
    rw [hr]
    simp only [hs, Option.getD_none]
    rfl
  · unfold toggle_fire
    rw [hr]
    simp only [hs, Option.getD_none]
    exact findSafety_setSafety_self db rid _
  · unfold toggle_gas
    rw [hr]
    simp only [hs, Option.getD_none]
    rfl
  · unfold toggle_gas
    rw [hr]
    simp only [hs, Option.getD_none]
    show findSafety (setSafety db rid _) rid = _
    exact findSafety_setSafety_self db rid _

theorem submit_none (db : DB) (rid : Nat) (lvl : ℚ) (now : Nat)
    (hr : findRoom db rid = none) :
    submit_gas_level db rid lvl now = ⟨.error .notFound, db, []⟩ := by
  unfold submit_gas_level
  rw [hr]

theorem submit_dup (db : DB) (rid : Nat) (lvl : ℚ) (now : Nat) (room : Room)
    (hr : findRoom db rid = some room) (hd : hasGasLogAt db rid now = true) :
    (submit_gas_level db rid lvl now).res = Except.error ApiErr.integrityError
    ∧ (submit_gas_level db rid lvl now).db = db := by
  unfold submit_gas_level
  rw [hr]
  simp only [hd, if_true]
  exact ⟨trivial, trivial⟩

theorem submit_ok (db : DB) (rid : Nat) (lvl : ℚ) (now : Nat) (room : Room)
    (hr : findRoom db rid = some room) (hd : hasGasLogAt db rid now = false) :
    (submit_gas_level db rid lvl now).res = Except.ok ⟨rid, lvl, now⟩
    ∧ (submit_gas_level db rid lvl now).db.gas_logs
        = ⟨rid, lvl, now⟩ :: db.gas_logs
    ∧ findSafety (submit_gas_level db rid lvl now).db rid =
        some (if 300 < lvl then
          { (findSafety db rid).getD (defaultSafety now) with
              gas_detected := true, valve_on := false, updated_at := now }
        else
          { (findSafety db rid).getD (defaultSafety now) with
              gas_detected := false, updated_at := now }) := by
  unfold submit_gas_level
  rw [hr]
  simp only [hd, Bool.false_eq_true, if_false]
  refine ⟨trivial, trivial, ?_⟩
  show findSafety (setSafety db rid _) rid = _
  exact findSafety_setSafety_self db rid _

/-- Claim C1 fails on the code: the ingest route always inserts with the
exact timestamp, so a second submission in the same hourly bucket (at a
distinct instant) succeeds and a room holds two readings whose
`recorded_at` truncate to the same hour. -/
theorem spec_c1_counterexample :
    (submit_gas_level (submit_gas_level sampleDB 1 150 36900).db 1 350
        38700).isOk = true
    ∧ ((submit_gas_level (submit_gas_level sampleDB 1 150 36900).db 1 350
          38700).db.gas_logs.filter
        (fun l => l.room_id == 1 && hourBucket l.recorded_at == 36000)).length
        = 2 := by
  decide

/-- Claim C1 as amended: the storage uniqueness key is the exact
`(room_id, recorded_at)` pair, not the hourly bucket.  A submission
whose exact timestamp already exists for the room fails the commit
(integrity error) without mutating state; a submission with a fresh
exact timestamp always inserts, so several readings of one room may
share an hourly bucket. -/
theorem spec_c1_amended (db : DB) (rid : Nat) (lvl : ℚ) (now : Nat)
    (room : Room) (hr : findRoom db rid = some room) :
    (hasGasLogAt db rid now = true →
        (submit_gas_level db rid lvl now).res
            = Except.error ApiErr.integrityError
        ∧ (submit_gas_level db rid lvl now).db = db)
  ∧ (hasGasLogAt db rid now = false →
        (submit_gas_level db rid lvl now).res = Except.ok ⟨rid, lvl, now⟩
        ∧ (submit_gas_level db rid lvl now).db.gas_logs
            = ⟨rid, lvl, now⟩ :: db.gas_logs) := by
  constructor
  · intro hd
    exact submit_dup db rid lvl now room hr hd
  · intro hd
    obtain ⟨h1, h2, _⟩ := submit_ok db rid lvl now room hr hd
    exact ⟨h1, h2⟩

/-- Witness for the amended C1 at a concrete database. -/
theorem spec_c1_amended_witness :
    ((submit_gas_level sampleDBdup 1 200 500).res
        = Except.error ApiErr.integrityError
      ∧ (submit_gas_level sampleDBdup 1 200 500).db = sampleDBdup)
  ∧ ((submit_gas_level sampleDBdup 1 200 600).res = Except.ok ⟨1, 200, 600⟩
      ∧ (submit_gas_level sampleDBdup 1 200 600).db.gas_logs
          = ⟨1, 200, 600⟩ :: sampleDBdup.gas_logs) :=
  ⟨(spec_c1_amended sampleDBdup 1 200 500 sampleRoom (by decide)).1 (by decide),
   (spec_c1_amended sampleDBdup 1 200 600 sampleRoom (by decide)).2 (by decide)⟩

theorem toggle_gas_eq (db : DB) (rid now : Nat) (room : Room)
    (hr : findRoom db rid = some room) :
    toggle_gas db rid now =
      if ((findSafety db rid).getD (defaultSafety now)).gas_detected then
        ⟨.ok (false, ((findSafety db rid).getD (defaultSafety now)).valve_on),
         setSafety db rid
           { (findSafety db rid).getD (defaultSafety now) with
               gas_detected := false, updated_at := now },
         [PushEvent.commit]⟩
      else
        ⟨.ok (true, false),
         setSafety db rid
           { (findSafety db rid).getD (defaultSafety now) with
               gas_detected := true, valve_on := false, updated_at := now },
         send_push_notification (ownerToken db room) "⚠️ Gas Leak Detected"
           ("Gas leak detected in " ++ room.space_name ++ ". Valve turned OFF.")
           ++ [PushEvent.commit]⟩ := by
  unfold toggle_gas
  rw [hr]

/-- Claim C2: any operation that lands `gas_detected` on true (the gas
toggle, or an ingest above threshold) leaves `valve_on = false`,
whatever the prior state. -/
theorem spec_c2_gas_true_closes_valve (db : DB) (rid now : Nat) (lvl : ℚ) :
    (∀ v, (toggle_gas db rid now).res = Except.ok (true, v) →
        ∃ st1, findSafety (toggle_gas db rid now).db rid = some st1
          ∧ st1.gas_detected = true ∧ st1.valve_on = false)
  ∧ (300 < lvl → (submit_gas_level db rid lvl now).isOk = true →
        ∃ st1, findSafety (submit_gas_level db rid lvl now).db rid = some st1
          ∧ st1.gas_detected = true ∧ st1.valve_on = false) := by
  constructor
  · intro v hres
    cases hr : findRoom db rid with
    | none =>
      rw [toggle_gas_none db rid now hr] at hres
      simp at hres
    | some room =>
      rw [toggle_gas_eq db rid now room hr] at hres ⊢
      by_cases hg : ((findSafety db rid).getD (defaultSafety now)).gas_detected
        = true
      · rw [if_pos hg] at hres
        simp at hres
      · rw [if_neg hg] at hres ⊢
        exact ⟨_, findSafety_setSafety_self db rid _, rfl, rfl⟩
  · intro hl hok
    cases hr : findRoom db rid with
    | none =>
      rw [submit_none db rid lvl now hr] at hok
      simp [Outcome.isOk] at hok
    | some room =>
      by_cases hd : hasGasLogAt db rid now = true
      · have h1 := (submit_dup db rid lvl now room hr hd).1
        unfold Outcome.isOk at hok
        rw [h1] at hok
        simp at hok
      · obtain ⟨_, _, h3⟩ := submit_ok db rid lvl now room hr
          (by simpa using hd)
        refine ⟨_, h3, ?_, ?_⟩ <;> simp [hl]

/-- Witness for C2 at a concrete database. -/
theorem spec_c2_gas_true_closes_valve_witness :
    (∃ st1, findSafety (toggle_gas sampleDB 1 60).db 1 = some st1
        ∧ st1.gas_detected = true ∧ st1.valve_on = false)
  ∧ (∃ st1, findSafety (submit_gas_level sampleDB 1 350 60).db 1 = some st1
        ∧ st1.gas_detected = true ∧ st1.valve_on = false) :=
  ⟨(spec_c2_gas_true_closes_valve sampleDB 1 60 350).1 false rfl,
   (spec_c2_gas_true_closes_valve sampleDB 1 60 350).2 (by decide) (by decide)⟩

/-- Claim C3: with an existing safety row, an ingest at or below the
threshold sets `gas_detected` to false and leaves `valve_on` exactly as
it was. -/
theorem spec_c3_safe_reading_keeps_valve (db : DB) (rid : Nat) (lvl : ℚ)
    (now : Nat) (st : RoomSafetyStatus)
    (hs : findSafety db rid = some st) (hl : lvl ≤ 300)
    (hok : (submit_gas_level db rid lvl now).isOk = true) :
    ∃ st1, findSafety (submit_gas_level db rid lvl now).db rid = some st1
      ∧ st1.gas_detected = false ∧ st1.valve_on = st.valve_on := by
  cases hr : findRoom db rid with
  | none =>
    rw [submit_none db rid lvl now hr] at hok
    simp [Outcome.isOk] at hok
  | some room =>
    by_cases hd : hasGasLogAt db rid now = true
    · have h1 := (submit_dup db rid lvl now room hr hd).1
      unfold Outcome.isOk at hok
      rw [h1] at hok
      simp at hok
    · obtain ⟨_, _, h3⟩ := submit_ok db rid lvl now room hr (by simpa using hd)
      have hnl : ¬ (300 < lvl) := not_lt.mpr hl
      rw [hs] at h3
      refine ⟨_, h3, ?_, ?_⟩ <;> simp [hnl, Option.getD_some]

/-- Witness for C3 at a concrete database whose valve is closed. -/
theorem spec_c3_safe_reading_keeps_valve_witness :
    ∃ st1, findSafety (submit_gas_level sampleDBvalveOff 1 100 60).db 1
        = some st1
      ∧ st1.gas_detected = false
      ∧ st1.valve_on = (⟨false, true, false, 0⟩ : RoomSafetyStatus).valve_on :=
  spec_c3_safe_reading_keeps_valve sampleDBvalveOff 1 100 60
    ⟨false, true, false, 0⟩ (by decide) (by norm_num) (by decide)

/-- Claim C4: an ingest on a missing room fails `notFound` without any
effect; on an existing room (with a fresh exact timestamp, so the
commit succeeds) it stores the reading at the exact submission instant,
sets `gas_detected` to `gas_level > 300`, and returns
`{room_id, gas_level, recorded_at = now}`. -/
theorem spec_c4_submit_functional (db : DB) (rid : Nat) (lvl : ℚ)
    (now : Nat) :
    (findRoom db rid = none →
        submit_gas_level db rid lvl now = ⟨.error .notFound, db, []⟩)
  ∧ (∀ room, findRoom db rid = some room → hasGasLogAt db rid now = false →
        (submit_gas_level db rid lvl now).res = Except.ok ⟨rid, lvl, now⟩
        ∧ (submit_gas_level db rid lvl now).db.gas_logs
            = ⟨rid, lvl, now⟩ :: db.gas_logs
        ∧ ∃ st1, findSafety (submit_gas_level db rid lvl now).db rid = some st1
            ∧ st1.gas_detected = decide (300 < lvl)) := by
  constructor
  · intro hr
    exact submit_none db rid lvl now hr
  · intro room hr hd
    obtain ⟨h1, h2, h3⟩ := submit_ok db rid lvl now room hr hd
    refine ⟨h1, h2, ⟨_, h3, ?_⟩⟩
    by_cases hl : 300 < lvl
    · simp [hl]
    · simp [hl]

/-- Witness for C4 at a concrete database. -/
theorem spec_c4_submit_functional_witness :
    (submit_gas_level sampleDB 2 350 60 = ⟨.error .notFound, sampleDB, []⟩)
  ∧ ((submit_gas_level sampleDB 1 350 60).res = Except.ok ⟨1, 350, 60⟩
      ∧ (submit_gas_level sampleDB 1 350 60).db.gas_logs
          = ⟨1, 350, 60⟩ :: sampleDB.gas_logs
      ∧ ∃ st1, findSafety (submit_gas_level sampleDB 1 350 60).db 1 = some st1
          ∧ st1.gas_detected = decide ((300 : ℚ) < 350)) :=
  ⟨(spec_c4_submit_functional sampleDB 2 350 60).1 (by decide),
   (spec_c4_submit_functional sampleDB 1 350 60).2 sampleRoom (by decide)
     (by decide)⟩

/-- Witness for C6 at a concrete database. -/
theorem spec_c6_missing_state_asymmetry_witness :
    (toggle_valve sampleDBNoStatus 1 7 = ⟨.error .notFound, sampleDBNoStatus, []⟩)
  ∧ ((toggle_fire sampleDBNoStatus 1 7).res = Except.ok true
      ∧ findSafety (toggle_fire sampleDBNoStatus 1 7).db 1
          = some ⟨true, false, true, 7⟩)
  ∧ ((toggle_gas sampleDBNoStatus 1 7).res = Except.ok (true, false)
      ∧ findSafety (toggle_gas sampleDBNoStatus 1 7).db 1
          = some ⟨false, true, false, 7⟩) :=
  spec_c6_missing_state_asymmetry sampleDBNoStatus 1 7 sampleRoom
    (by decide) (by decide)

/-! ### The history query (C7) -/

theorem mem_gasQueryFiltered (db : DB) (rid : Nat) (s e : Option Nat)
    (l : RoomGasHourlyLog) (hl : l ∈ gasQueryFiltered db rid s e) :
    (∀ x, s = some x → x ≤ l.recorded_at)
    ∧ (∀ y, e = some y → l.recorded_at ≤ y) := by
  unfold gasQueryFiltered at hl
  constructor
  · intro x hx
    subst hx
    cases e with
    | none =>
      have := (List.mem_filter.mp hl).2
      simpa using this
    | some y =>
      have h1 := (List.mem_filter.mp hl).1
      have := (List.mem_filter.mp h1).2
      simpa using this
  · intro y hy
    subst hy
    cases s with
    | none =>
      have := (List.mem_filter.mp hl).2
      simpa using this
    | some x =>
      have := (List.mem_filter.mp hl).2
      simpa using this

/-- Claim C7: for a limit in `[1..720]`, a successful history query
returns at most `limit` items, sorted descending by `recorded_at`, and
every item respects the inclusive optional bounds. -/
theorem spec_c7_query_shape (db : DB) (rid : Nat) (s e : Option Nat)
    (limit : Nat) (_hlo : 1 ≤ limit) (_hhi : limit ≤ 720) :
    ∀ resp, (get_gas_levels db rid s e limit).res = Except.ok resp →
      resp.data.length ≤ limit
      ∧ List.Pairwise (fun a b => b.2 ≤ a.2) resp.data
      ∧ ∀ p ∈ resp.data,
          (∀ x, s = some x → x ≤ p.2) ∧ (∀ y, e = some y → p.2 ≤ y) := by
  intro resp hres
  cases hr : findRoom db rid with
  | none =>
    unfold get_gas_levels at hres
    rw [hr] at hres
    simp at hres
  | some room =>
    unfold get_gas_levels at hres
    rw [hr] at hres
    have h' : Except.ok (ε := ApiErr)
        (⟨rid,
          ((sortByDesc (gasQueryFiltered db rid s e)).take limit).length,
          ((sortByDesc (gasQueryFiltered db rid s e)).take limit).map
            (fun l => (l.gas_level, l.recorded_at))⟩ : GasLevelsResponse)
        = Except.ok resp := hres
    injection h' with h'
    subst h'
    refine ⟨?_, ?_, ?_⟩
    · rw [List.length_map]
      exact List.length_take_le _ _
    · exact List.pairwise_map.mpr
        (List.Pairwise.sublist (List.take_sublist _ _) (sorted_sortByDesc _))
    · intro p hp
      rcases List.mem_map.mp hp with ⟨l, hl, hfl⟩
      have hl2 : l ∈ sortByDesc (gasQueryFiltered db rid s e) :=
        (List.take_sublist _ _).subset hl
      have hl3 := (mem_sortByDesc l _).mp hl2
      have hb := mem_gasQueryFiltered db rid s e l hl3
      subst hfl
      exact hb

/-- Witness for C7 at a concrete database with two readings. -/
theorem spec_c7_query_shape_witness :
    (⟨1, 2, [((400 : ℚ), 80), ((100 : ℚ), 50)]⟩
        : GasLevelsResponse).data.length ≤ 2
    ∧ List.Pairwise (fun a b => b.2 ≤ a.2)
        (⟨1, 2, [((400 : ℚ), 80), ((100 : ℚ), 50)]⟩
          : GasLevelsResponse).data
    ∧ ∀ p ∈ (⟨1, 2, [((400 : ℚ), 80), ((100 : ℚ), 50)]⟩
          : GasLevelsResponse).data,
        (∀ x, (some 10 : Option Nat) = some x → x ≤ p.2)
        ∧ (∀ y, (some 100 : Option Nat) = some y → p.2 ≤ y) :=
  spec_c7_query_shape sampleDBlogs 1 (some 10) (some 100) 2
    (by decide) (by decide) ⟨1, 2, [(400, 80), (100, 50)]⟩ rfl

/-! ### Push/commit ordering (C8) -/

theorem send_push_isPush (tok : Option String) (ti b : String) :
    ∀ p ∈ send_push_notification tok ti b, p.isPush = true := by
  intro p hp
  unfold send_push_notification at hp
  cases tok with
  | none => cases hp
  | some t =>
    by_cases he : t = ""
    · simp [he] at hp
    · simp [he] at hp
      subst hp
      rfl

theorem noPushAfterCommit_pushes (ps : List PushEvent)
    (hp : ∀ p ∈ ps, p.isPush = true) :
    noPushAfterCommit ps = true := by
  induction ps with
  | nil => rfl
  | cons a ps ih =>
    have ha := hp a (List.mem_cons_self a ps)
    cases a with
    | push t ti b =>
      unfold noPushAfterCommit at ih ⊢
      simpa using ih (fun p hp' => hp p (List.mem_cons_of_mem _ hp'))
    | commit => simp [PushEvent.isPush] at ha

theorem noPushAfterCommit_pushes_then_commit (ps : List PushEvent)
    (hp : ∀ p ∈ ps, p.isPush = true) :
    noPushAfterCommit (ps ++ [PushEvent.commit]) = true := by
  induction ps with
  | nil => rfl
  | cons a ps ih =>
    have ha := hp a (List.mem_cons_self a ps)
    cases a with
    | push t ti b =>
      unfold noPushAfterCommit at ih ⊢
      simpa using ih (fun p hp' => hp p (List.mem_cons_of_mem _ hp'))
    | commit => simp [PushEvent.isPush] at ha

/-- Claim C8 fails on the code: in `toggle_gas` (and likewise in
`submit_gas_level`) the push is dispatched before `db.commit()`.  At a
concrete database the gas-toggle trace has a push strictly before its
first commit. -/
theorem spec_c8_counterexample :
    noPushBeforeCommit (toggle_gas sampleDB 1 5).trace = false := by
  decide

/-- Claim C8 as amended: only `toggle_fire` pushes after the commit; in
`toggle_gas` and `submit_gas_level` every push happens before the
commit (never after it), so a push failure there would precede — and
could prevent — the commit rather than follow it. -/
theorem spec_c8_amended (db : DB) (rid now : Nat) (lvl : ℚ) :
    noPushBeforeCommit (toggle_fire db rid now).trace = true
  ∧ noPushAfterCommit (toggle_gas db rid now).trace = true
  ∧ noPushAfterCommit (submit_gas_level db rid lvl now).trace = true := by
  refine ⟨?_, ?_, ?_⟩
  · cases hr : findRoom db rid with
    | none => rw [toggle_fire_none db rid now hr]; rfl
    | some room =>
      unfold toggle_fire
      rw [hr]
      rfl
  · cases hr : findRoom db rid with
    | none => rw [toggle_gas_none db rid now hr]; rfl
    | some room =>
      rw [toggle_gas_eq db rid now room hr]
      by_cases hg : ((findSafety db rid).getD (defaultSafety now)).gas_detected
        = true
      · rw [if_pos hg]
        rfl
      · rw [if_neg hg]
        exact noPushAfterCommit_pushes_then_commit _ (send_push_isPush _ _ _)
  · cases hr : findRoom db rid with
    | none => rw [submit_none db rid lvl now hr]; rfl
    | some room =>
      unfold submit_gas_level
      rw [hr]
      by_cases hd : hasGasLogAt db rid now = true
      · simp only [hd, if_true]
        by_cases hl : 300 < lvl
        · simp only [hl, if_true]
          exact noPushAfterCommit_pushes _ (send_push_isPush _ _ _)
        · simp only [hl, if_false]
          rfl
      · have hd' : hasGasLogAt db rid now = false := by
          simpa using hd
        simp only [hd', Bool.false_eq_true, if_false]
        by_cases hl : 300 < lvl
        · simp only [hl, if_true]
          exact noPushAfterCommit_pushes_then_commit _ (send_push_isPush _ _ _)
        · simp only [hl, if_false]
          rfl

/-! ### Safety-row lifecycle (C9) -/

theorem toggle_fire_wf (db : DB) (rid now : Nat) (hwf : DBWf db) :
    DBWf (toggle_fire db rid now).db := by
  cases hr : findRoom db rid with
  | none => rw [toggle_fire_none db rid now hr]; exact hwf
  | some room =>
    have hm := room_of_findRoom db rid room hr
    unfold toggle_fire
    rw [hr]
    exact setSafety_wf db rid _ hwf ⟨room, hm.1, hm.2⟩

theorem toggle_gas_wf (db : DB) (rid now : Nat) (hwf : DBWf db) :
    DBWf (toggle_gas db rid now).db := by
  cases hr : findRoom db rid with
  | none => rw [toggle_gas_none db rid now hr]; exact hwf
  | some room =>
    have hm := room_of_findRoom db rid room hr
    rw [toggle_gas_eq db rid now room hr]
    by_cases hg : ((findSafety db rid).getD (defaultSafety now)).gas_detected
      = true
    · rw [if_pos hg]
      exact setSafety_wf db rid _ hwf ⟨room, hm.1, hm.2⟩
    · rw [if_neg hg]
      exact setSafety_wf db rid _ hwf ⟨room, hm.1, hm.2⟩

theorem toggle_valve_wf (db : DB) (rid now : Nat) (hwf : DBWf db) :
    DBWf (toggle_valve db rid now).db := by
  cases hr : findRoom db rid with
  | none => rw [toggle_valve_none db rid now hr]; exact hwf
  | some room =>
    have hm := room_of_findRoom db rid room hr
    unfold toggle_valve
    rw [hr]
    cases hs : findSafety db rid with
    | none => exact hwf
    | some st => exact setSafety_wf db rid _ hwf ⟨room, hm.1, hm.2⟩

theorem submit_wf (db : DB) (rid : Nat) (lvl : ℚ) (now : Nat) (hwf : DBWf db) :
    DBWf (submit_gas_level db rid lvl now).db := by
  cases hr : findRoom db rid with
  | none => rw [submit_none db rid lvl now hr]; exact hwf
  | some room =>
    have hm := room_of_findRoom db rid room hr
    by_cases hd : hasGasLogAt db rid now = true
    · rw [(submit_dup db rid lvl now room hr hd).2]
      exact hwf
    · have hd' : hasGasLogAt db rid now = false := by
        simpa using hd
      unfold submit_gas_level
      rw [hr]
      simp only [hd', Bool.false_eq_true, if_false]
      exact setSafety_wf db rid _ hwf ⟨room, hm.1, hm.2⟩

theorem create_room_wf (db : DB) (uid now : Nat) (nm : String)
    (sty ec : Option String) (hwf : DBWf db) :
    DBWf (create_room db uid nm sty ec now).db
    ∧ findSafety (create_room db uid nm sty ec now).db (nextRoomId db)
        = some (defaultSafety now) := by
  rcases hwf with ⟨hnd, hfk⟩
  refine ⟨⟨?_, ?_⟩, ?_⟩
  · show (nextRoomId db :: safetyKeys db).Nodup
    rw [List.nodup_cons]
    refine ⟨?_, hnd⟩
    intro hmem
    rcases hfk _ hmem with ⟨r, hr, hre⟩
    have := lt_nextRoomId db r hr
    omega
  · intro k hk
    rcases List.mem_cons.mp hk with hk | hk
    · exact ⟨⟨nextRoomId db, nm, sty, ec, uid, now⟩,
        List.mem_cons_self _ _, hk.symm⟩
    · rcases hfk k hk with ⟨r, hr, hre⟩
      exact ⟨r, List.mem_cons_of_mem _ hr, hre⟩
  · show ((((nextRoomId db, defaultSafety now) :: db.safety).find?
        (fun p => p.1 == nextRoomId db)).map (fun p => p.2))
      = some (defaultSafety now)
    rw [List.find?_cons_of_pos _ (by simp)]
    rfl

/-- Claim C9 fails on the code: `create_room` eagerly installs a
`RoomSafetyStatus` together with the room, so a safety row exists
before any mutating operation has touched the room. -/
theorem spec_c9_counterexample :
    sampleDBNoRooms.safety = []
    ∧ findSafety (create_room sampleDBNoRooms 1 "Kitchen" none none 0).db 1
        = some (defaultSafety 0) := by
  constructor
  · rfl
  · decide

/-- Claim C9 as amended: `create_room` creates the safety row eagerly,
with defaults, at room creation; the mutating operations (`toggle_fire`,
`toggle_gas`, and a gas ingestion whose commit succeeds) create one
lazily when the room has none; and every operation preserves the
storage invariant that each room has at most one safety row (unique
`room_id`). -/
theorem spec_c9_amended (db : DB) (uid rid now : Nat) (nm : String)
    (sty ec : Option String) (lvl : ℚ) (hwf : DBWf db) :
    (DBWf (create_room db uid nm sty ec now).db
      ∧ findSafety (create_room db uid nm sty ec now).db (nextRoomId db)
          = some (defaultSafety now))
  ∧ DBWf (toggle_fire db rid now).db
  ∧ DBWf (toggle_gas db rid now).db
  ∧ DBWf (toggle_valve db rid now).db
  ∧ DBWf (submit_gas_level db rid lvl now).db
  ∧ (∀ room, findRoom db rid = some room → findSafety db rid = none →
      (∃ st, findSafety (toggle_fire db rid now).db rid = some st)
      ∧ (∃ st, findSafety (toggle_gas db rid now).db rid = some st)
      ∧ (hasGasLogAt db rid now = false →
          ∃ st, findSafety (submit_gas_level db rid lvl now).db rid
            = some st)) := by
  refine ⟨create_room_wf db uid now nm sty ec hwf,
    toggle_fire_wf db rid now hwf, toggle_gas_wf db rid now hwf,
    toggle_valve_wf db rid now hwf, submit_wf db rid lvl now hwf, ?_⟩
  intro room hr hs
  refine ⟨⟨⟨true, false, true, now⟩, ?_⟩, ⟨⟨false, true, false, now⟩, ?_⟩, ?_⟩
  · unfold toggle_fire
    rw [hr]
    simp only [hs, Option.getD_none]
    exact findSafety_setSafety_self db rid _
  · unfold toggle_gas
    rw [hr]
    simp only [hs, Option.getD_none]
    show findSafety (setSafety db rid _) rid = _
    exact findSafety_setSafety_self db rid _
  · intro hd
    exact ⟨_, (submit_ok db rid lvl now room hr hd).2.2⟩

/-- Witness for the amended C9 at a concrete database whose room has no
safety row yet. -/
theorem spec_c9_amended_witness :
    (DBWf (create_room sampleDBNoStatus 2 "Den" none none 9).db
      ∧ findSafety (create_room sampleDBNoStatus 2 "Den" none none 9).db
          (nextRoomId sampleDBNoStatus) = some (defaultSafety 9))
  ∧ DBWf (toggle_fire sampleDBNoStatus 1 9).db
  ∧ DBWf (toggle_gas sampleDBNoStatus 1 9).db
  ∧ DBWf (toggle_valve sampleDBNoStatus 1 9).db
  ∧ DBWf (submit_gas_level sampleDBNoStatus 1 100 9).db
  ∧ ((∃ st, findSafety (toggle_fire sampleDBNoStatus 1 9).db 1 = some st)
      ∧ (∃ st, findSafety (toggle_gas sampleDBNoStatus 1 9).db 1 = some st)
      ∧ (∃ st, findSafety (submit_gas_level sampleDBNoStatus 1 100 9).db 1
            = some st)) := by
  obtain ⟨h1, h2, h3, h4, h5, h6⟩ :=
    spec_c9_amended sampleDBNoStatus 2 1 9 "Den" none none 100
      ⟨by decide, by decide⟩
  obtain ⟨h7, h8, h9⟩ := h6 sampleRoom (by decide) (by decide)
  exact ⟨h1, h2, h3, h4, h5, h7, h8, h9 (by decide)⟩

end GasBE
